import Mathlib

/-!
Shallow embedding of the "Work in Taiwan Guide" backend (src/main.py,
src/schemas.py) and proofs about its handlers.

The repository's `database.py` (the data-access layer: the process-wide
`db` handle, `create_document`, `get_documents`) is not among the source
files; its operations are modelled from the spec (section 4.1) and are
marked as such in their doc comments.  MongoDB driver calls made directly
by the handlers (`find_one`, `update_one`, `delete_one`) are external
collaborators and are embedded with standard first-match document-store
semantics.  The password-hashing library (passlib/bcrypt) is external and
nondeterministic; it is embedded as an abstract `HashScheme` parameter.
-/

namespace WorkInTaiwan

/-- An HTTP-status-carrying error, as raised by `HTTPException` in the
handlers: a status code and a short detail message. -/
structure HttpError where
  status : Nat
  detail : String
deriving DecidableEq, Repr

/-- Abstract model of the passlib `CryptContext(schemes=["bcrypt"])`:
`hash` embeds `hash_password` (src/main.py line 43) and `verify` embeds
`verify_password` (line 47).  bcrypt itself is an external library, so the
scheme is a parameter; theorems assume only the properties they need. -/
structure HashScheme where
  hash : String → String
  verify : String → String → Bool

/-- A stored `user` document (schemas.py `User`, with the
database-generated `_id` carried as a natural number).  The `preferences`
open map is never read by any handler and is omitted. -/
structure UserDoc where
  id : Nat
  email : String
  password_hash : String
  name : Option String
  role : String
deriving DecidableEq, Repr

/-- A stored `progress` document (schemas.py `Progress` plus the
`updated_at` stamp written by `set_progress`).  The `items` map is an
association list from step key to completion flag. -/
structure ProgressDoc where
  user_id : String
  items : List (String × Bool)
  updated_at : Nat
deriving DecidableEq, Repr

/-- A stored `notification` document (schemas.py `Notification`, with the
database-generated `_id`). -/
structure NotifDoc where
  id : Nat
  user_id : String
  type : String
  message : String
  due_date : Option String
deriving DecidableEq, Repr

/-- A BSON-like field value, for `step` documents whose fields are
manipulated generically (`update_step` takes an arbitrary
`Dict[str, Any]` payload and applies a MongoDB `$set`). -/
inductive BVal where
  | str (s : String)
  | int (n : Int)
  | bool (b : Bool)
  | oid (n : Nat)
  | null
deriving DecidableEq, Repr

/-- A `step` document as a field-name/value association list (a MongoDB
document has unique field names; reads and writes act on the first
occurrence, which coincides with dictionary semantics). -/
abbrev BDoc := List (String × BVal)

/-- First-occurrence field read, the model of Python `dict.get(k)` /
document field access. -/
def getField : BDoc → String → Option BVal
  | [], _ => none
  | (k', v) :: ds, k => if k' = k then some v else getField ds k

/-- Field write: overwrite the first occurrence of the key, or append the
pair if the key is absent — Python `d[k] = v` on a unique-key dict. -/
def setField : BDoc → String → BVal → BDoc
  | [], k, v => [(k, v)]
  | (k', v') :: ds, k, v =>
      if k' = k then (k, v) :: ds else (k', v') :: setField ds k v

/-- Remove every occurrence of a key — Python `d.pop(k, None)` on a
unique-key dict. -/
def popField : BDoc → String → BDoc
  | [], _ => []
  | (k', v) :: ds, k =>
      if k' = k then popField ds k else (k', v) :: popField ds k

/-- MongoDB `$set` with a payload document: each payload field is written
into the document in payload order (`update_one(..., {"$set": payload})`,
src/main.py line 130). -/
def applySet (d : BDoc) (payload : BDoc) : BDoc :=
  payload.foldl (fun acc kv => setField acc kv.1 kv.2) d

/-- Modelled from the spec (section 4.1, `database.py` absent from src/):
the document store behind the process-wide `db` handle.  Each collection
used by the handlers is a list of documents in insertion order;
`nextId` generates the database-side unique identifiers. -/
structure Store where
  users : List UserDoc
  steps : List BDoc
  progress : List ProgressDoc
  notifications : List NotifDoc
  nextId : Nat
deriving DecidableEq, Repr

/-- Modelled from the spec: the process-wide lazily-initialized connection
handle; absent (`None`) when the store is unavailable. -/
abbrev DB := Option Store

/-- The store with no documents. -/
def emptyStore : Store := ⟨[], [], [], [], 0⟩

/-- `db["user"].find_one({"email": email})`: first stored user with an
exact email match, in natural (insertion) order. -/
def find_one_user (s : Store) (email : String) : Option UserDoc :=
  s.users.find? (fun u => u.email = email)

/-- `db["progress"].find_one({"user_id": uid})`: first stored progress
document with an exact user_id match. -/
def find_one_progress (s : Store) (uid : String) : Option ProgressDoc :=
  s.progress.find? (fun d => d.user_id = uid)

-- Request / response shapes (src/main.py pydantic models)

/-- `LoginRequest` (src/main.py line 27). -/
structure LoginRequest where
  email : String
  password : String
deriving DecidableEq, Repr

/-- `SignupRequest` (src/main.py line 31). -/
structure SignupRequest where
  email : String
  password : String
  name : Option String
deriving DecidableEq, Repr

/-- `AuthResponse` (src/main.py line 36): the fields echoed back by
signup and login.  There is no hash field in this shape. -/
structure AuthResponse where
  user_id : String
  email : String
  name : Option String
  role : String
deriving DecidableEq, Repr

/-- `ProgressUpdate` (src/main.py line 147). -/
structure ProgressUpdate where
  user_id : String
  items : List (String × Bool)
deriving DecidableEq, Repr

/-- The body returned by `get_progress`: `{"items": ...}`. -/
structure ProgressOut where
  items : List (String × Bool)
deriving DecidableEq, Repr

/-- `NotificationIn` (src/main.py line 175). -/
structure NotificationIn where
  user_id : String
  message : String
  due_date : Option String
deriving DecidableEq, Repr

/-- A notification as returned by `list_notifications`: the raw `_id`
rewritten to the string field `id`. -/
structure NotifOut where
  id : String
  user_id : String
  type : String
  message : String
  due_date : Option String
deriving DecidableEq, Repr

/-- Modelled from the spec (section 4.1): `create_document("user", u)`
inserts the user's fields as a new document and returns the generated
identifier as a string; it fails with a storage-unavailable condition when
the store is unreachable. -/
def create_user_document (s : Store) (email password_hash : String)
    (name : Option String) (role : String) : String × Store :=
  (toString s.nextId,
   { s with
       users := s.users ++ [⟨s.nextId, email, password_hash, name, role⟩],
       nextId := s.nextId + 1 })

/-- `signup` (src/main.py lines 81–94): rejects an already-registered
email with 400, otherwise hashes the password, stores the user with role
"user", and returns the new identifier, email, name, and role. -/
def signup (hs : HashScheme) (db : DB) (p : SignupRequest) :
    Except HttpError (AuthResponse × Store) :=
  let existing : Option UserDoc :=
    match db with
    | some s => find_one_user s p.email
    | none => none
  if existing.isSome then
    .error ⟨400, "Email already registered"⟩
  else
    match db with
    | none => .error ⟨500, "Database not available"⟩
    | some s =>
        let (user_id, s') :=
          create_user_document s p.email (hs.hash p.password) p.name "user"
        .ok (⟨user_id, p.email, p.name, "user"⟩, s')

/-- `login` (src/main.py lines 97–104): looks the user up by exact email
(None when the handle is absent), answers 401 on no match or failed
verification, else echoes the profile fields. -/
def login (hs : HashScheme) (db : DB) (p : LoginRequest) :
    Except HttpError AuthResponse :=
  let doc : Option UserDoc :=
    match db with
    | some s => find_one_user s p.email
    | none => none
  match doc with
  | none => .error ⟨401, "Invalid credentials"⟩
  | some u =>
      if hs.verify p.password u.password_hash then
        .ok ⟨toString u.id, u.email, u.name, u.role⟩
      else
        .error ⟨401, "Invalid credentials"⟩

-- Step handlers (src/main.py lines 108–143)

/-- The Python sort key `lambda x: x.get("order", 0)` (src/main.py line
116): the integer `order` field, defaulting to 0 when absent.  Every step
created through the schema carries an integer `order`. -/
def orderKey (d : BDoc) : Int :=
  match getField d "order" with
  | some (.int n) => n
  | _ => 0

/-- The per-document shaping in `list_steps` (src/main.py lines 112–114):
write the raw `_id` as the string field `id`, then drop `_id`.
`str(it.get("_id"))` on a generated identifier is its decimal string. -/
def shapeStep (d : BDoc) : BDoc :=
  popField
    (setField d "id"
      (.str (match getField d "_id" with
             | some (.oid n) => toString n
             | _ => "None")))
    "_id"

/-- `list_steps` (src/main.py lines 108–117): all `step` documents (empty
when the handle is absent), each shaped by `shapeStep`, sorted ascending
by `orderKey`.  Python's stable `list.sort` is embedded as Mathlib's
stable `insertionSort`; the spec leaves tie order unspecified. -/
def list_steps (db : DB) : List BDoc :=
  let items :=
    match db with
    | some s => s.steps.map shapeStep
    | none => []
  items.insertionSort (fun a b => orderKey a ≤ orderKey b)

/-- Modelled from the spec (section 4.1): `create_document("step", step)`
inserts the step's fields (with the generated `_id`) and returns the new
identifier as a string.  The step's schema fields are the document `d`. -/
def create_step (db : DB) (d : BDoc) : Except HttpError (String × Store) :=
  match db with
  | none => .error ⟨500, "Database not available"⟩
  | some s =>
      .ok (toString s.nextId,
           { s with
               steps := s.steps ++ [("_id", .oid s.nextId) :: d],
               nextId := s.nextId + 1 })

/-- `db["step"].update_one({"_id": oid}, {"$set": payload})`: apply the
`$set` to the first document whose `_id` matches; `none` when no document
matched (matched_count = 0). -/
def updateFirstStep (steps : List BDoc) (oid : Nat) (payload : BDoc) :
    Option (List BDoc) :=
  match steps with
  | [] => none
  | d :: ds =>
      if getField d "_id" = some (.oid oid) then
        some (applySet d payload :: ds)
      else
        (updateFirstStep ds oid payload).map (d :: ·)

/-- `db["step"].delete_one({"_id": oid})`: remove the first document whose
`_id` matches; `none` when none matched (deleted_count = 0). -/
def deleteFirstStep (steps : List BDoc) (oid : Nat) :
    Option (List BDoc) :=
  match steps with
  | [] => none
  | d :: ds =>
      if getField d "_id" = some (.oid oid) then some ds
      else (deleteFirstStep ds oid).map (d :: ·)

/-- `update_step` (src/main.py lines 126–133): 500 when the handle is
absent, 404 when no step has the identifier, else the `$set` merge. -/
def update_step (db : DB) (step_id : Nat) (payload : BDoc) :
    Except HttpError Store :=
  match db with
  | none => .error ⟨500, "Database not available"⟩
  | some s =>
      match updateFirstStep s.steps step_id payload with
      | none => .error ⟨404, "Step not found"⟩
      | some steps' => .ok { s with steps := steps' }

/-- `delete_step` (src/main.py lines 136–143): 500 when the handle is
absent, 404 when no step has the identifier, else removal. -/
def delete_step (db : DB) (step_id : Nat) : Except HttpError Store :=
  match db with
  | none => .error ⟨500, "Database not available"⟩
  | some s =>
      match deleteFirstStep s.steps step_id with
      | none => .error ⟨404, "Step not found"⟩
      | some steps' => .ok { s with steps := steps' }

-- Progress handlers (src/main.py lines 152–171)

/-- `get_progress` (src/main.py lines 152–159): `{"items": {}}` when the
handle is absent or no progress document exists, else the stored items
map of the first matching document. -/
def get_progress (db : DB) (user_id : String) : ProgressOut :=
  match db with
  | none => ⟨[]⟩
  | some s =>
      match find_one_progress s user_id with
      | none => ⟨[]⟩
      | some doc => ⟨doc.items⟩

/-- `db["progress"].update_one({"user_id": uid}, {"$set": {...}},
upsert=True)`: overwrite `items` and `updated_at` on the first matching
document, or insert a fresh document when none matches. -/
def upsertProgress (l : List ProgressDoc) (uid : String)
    (items : List (String × Bool)) (now : Nat) : List ProgressDoc :=
  match l with
  | [] => [⟨uid, items, now⟩]
  | d :: ds =>
      if d.user_id = uid then
        { d with items := items, updated_at := now } :: ds
      else
        d :: upsertProgress ds uid items now

/-- `set_progress` (src/main.py lines 162–171): 500 when the handle is
absent, else upsert the full items map with a fresh UTC stamp (the
server-side `datetime.utcnow()` capture is the parameter `now`). -/
def set_progress (db : DB) (now : Nat) (p : ProgressUpdate) :
    Except HttpError Store :=
  match db with
  | none => .error ⟨500, "Database not available"⟩
  | some s => .ok { s with progress := upsertProgress s.progress p.user_id p.items now }

-- Notification handlers (src/main.py lines 181–194)

/-- `create_notification` (src/main.py lines 181–185): builds a
Notification with type hard-coded to "reminder" and stores it via
`create_document("notification", notif)` (modelled from the spec: insert
and return the generated identifier as a string; storage-unavailable when
the store is unreachable). -/
def create_notification (db : DB) (p : NotificationIn) :
    Except HttpError (String × Store) :=
  match db with
  | none => .error ⟨500, "Database not available"⟩
  | some s =>
      .ok (toString s.nextId,
           { s with
               notifications :=
                 s.notifications ++ [⟨s.nextId, p.user_id, "reminder", p.message, p.due_date⟩],
               nextId := s.nextId + 1 })

/-- `list_notifications` (src/main.py lines 188–194): all notifications
whose `user_id` matches exactly (empty when the handle is absent), each
with the raw `_id` rewritten to the string field `id`. -/
def list_notifications (db : DB) (user_id : String) : List NotifOut :=
  match db with
  | none => []
  | some s =>
      (s.notifications.filter (fun n => n.user_id = user_id)).map
        (fun n => ⟨toString n.id, n.user_id, n.type, n.message, n.due_date⟩)

/-- A concrete instance of `HashScheme` used to instantiate theorems at
closed inputs: hashing prefixes a bcrypt-style format marker and
verification re-computes the hash.  (It stands in for the external bcrypt
library, whose outputs likewise never echo the plaintext verbatim.) -/
def hsModel : HashScheme :=
  ⟨fun pw => "$2b$12$" ++ pw, fun pw h => h == "$2b$12$" ++ pw⟩

instance : IsTotal BDoc (fun a b => orderKey a ≤ orderKey b) :=
  ⟨fun a b => Int.le_total (orderKey a) (orderKey b)⟩

instance : IsTrans BDoc (fun a b => orderKey a ≤ orderKey b) :=
  ⟨fun _ _ _ hab hbc => le_trans hab hbc⟩

-- Helper lemmas on document field operations

theorem getField_setField_self (d : BDoc) (k : String) (v : BVal) :
    getField (setField d k v) k = some v := by
  induction d with
  | nil => simp [setField, getField]
  | cons kv ds ih =>
      obtain ⟨k', v'⟩ := kv
      by_cases h : k' = k
      · simp [setField, getField, h]
      · simp [setField, getField, h, ih]

theorem getField_setField_ne (d : BDoc) (k k' : String) (v : BVal)
    (h : k' ≠ k) : getField (setField d k v) k' = getField d k' := by
  induction d with
  | nil => simp [setField, getField, Ne.symm h]
  | cons kv ds ih =>
      obtain ⟨k0, v0⟩ := kv
      by_cases h0 : k0 = k
      · simp [setField, getField, h0, Ne.symm h]
      · by_cases h1 : k0 = k'
        · simp [setField, getField, h0, h1, h]
        · simp [setField, getField, h0, h1, ih]

theorem getField_popField_self (d : BDoc) (k : String) :
    getField (popField d k) k = none := by
  induction d with
  | nil => simp [popField, getField]
  | cons kv ds ih =>
      obtain ⟨k0, v0⟩ := kv
      by_cases h0 : k0 = k
      · simpa [popField, h0] using ih
      · simpa [popField, getField, h0] using ih

theorem getField_popField_ne (d : BDoc) (k k' : String) (h : k' ≠ k) :
    getField (popField d k) k' = getField d k' := by
  induction d with
  | nil => simp [popField, getField]
  | cons kv ds ih =>
      obtain ⟨k0, v0⟩ := kv
      by_cases h0 : k0 = k
      · have hk0 : k0 ≠ k' := by
          rw [h0]; exact fun hk => h hk.symm
        simp [popField, getField, h0, hk0, Ne.symm h, ih]
      · by_cases h1 : k0 = k'
        · simp [popField, getField, h0, h1, h]
        · simp [popField, getField, h0, h1, ih]

theorem getField_eq_none_of_not_mem (d : BDoc) (k : String)
    (h : k ∉ d.map Prod.fst) : getField d k = none := by
  induction d with
  | nil => simp [getField]
  | cons kv ds ih =>
      obtain ⟨k0, v0⟩ := kv
      simp only [List.map_cons, List.mem_cons] at h
      push_neg at h
      simp [getField, Ne.symm h.1, ih h.2]

theorem getField_applySet_of_none (d payload : BDoc) (k : String)
    (h : getField payload k = none) :
    getField (applySet d payload) k = getField d k := by
  induction payload generalizing d with
  | nil => simp [applySet]
  | cons kv rest ih =>
      obtain ⟨k0, v0⟩ := kv
      simp only [getField] at h
      by_cases h0 : k0 = k
      · simp [h0] at h
      · simp only [h0, if_false] at h
        simpa [applySet, List.foldl_cons, getField_setField_ne _ _ _ _ (fun hk => h0 hk.symm)]
          using ih (setField d k0 v0) h

theorem getField_applySet_of_some (d payload : BDoc) (k : String) (v : BVal)
    (hnd : (payload.map Prod.fst).Nodup)
    (h : getField payload k = some v) :
    getField (applySet d payload) k = some v := by
  induction payload generalizing d with
  | nil => simp [getField] at h
  | cons kv rest ih =>
      obtain ⟨k0, v0⟩ := kv
      simp only [List.map_cons, List.nodup_cons] at hnd
      simp only [getField] at h
      by_cases h0 : k0 = k
      · simp only [h0, if_true] at h
        have hv : v0 = v := Option.some.inj h
        have hrest : getField rest k = none := by
          apply getField_eq_none_of_not_mem
          rw [← h0]; exact hnd.1
        have hnone := getField_applySet_of_none (setField d k0 v0) rest k hrest
        have hself : getField (setField d k0 v0) k = some v0 := by
          rw [← h0]; exact getField_setField_self d k0 v0
        calc getField (applySet d ((k0, v0) :: rest)) k
            = getField (applySet (setField d k0 v0) rest) k := by
              simp [applySet, List.foldl_cons]
          _ = some v := by rw [hnone, hself, hv]
      · simp only [h0, if_false] at h
        simpa [applySet, List.foldl_cons] using ih (setField d k0 v0) hnd.2 h

-- Helper lemmas on first-match search and the step/progress operations

theorem find?_append_singleton {α : Type} (p : α → Bool) (l : List α) (u : α)
    (h : l.find? p = none) (hu : p u = true) :
    (l ++ [u]).find? p = some u := by
  induction l with
  | nil => simp [List.find?, hu]
  | cons a l ih =>
      by_cases ha : p a
      · rw [List.find?_cons_of_pos _ ha] at h
        exact absurd h (by simp)
      · rw [List.find?_cons_of_neg _ (by simpa using ha)] at h
        rw [List.cons_append, List.find?_cons_of_neg _ (by simpa using ha)]
        exact ih h

theorem updateFirstStep_eq_none_iff (steps : List BDoc) (oid : Nat)
    (payload : BDoc) :
    updateFirstStep steps oid payload = none ↔
      ∀ d ∈ steps, getField d "_id" ≠ some (.oid oid) := by
  induction steps with
  | nil => simp [updateFirstStep]
  | cons e ds ih =>
      by_cases he : getField e "_id" = some (.oid oid)
      · simp [updateFirstStep, he]
      · simp [updateFirstStep, he, ih]

theorem deleteFirstStep_eq_none_iff (steps : List BDoc) (oid : Nat) :
    deleteFirstStep steps oid = none ↔
      ∀ d ∈ steps, getField d "_id" ≠ some (.oid oid) := by
  induction steps with
  | nil => simp [deleteFirstStep]
  | cons e ds ih =>
      by_cases he : getField e "_id" = some (.oid oid)
      · simp [deleteFirstStep, he]
      · simp [deleteFirstStep, he, ih]

theorem updateFirstStep_eq_some_elim (steps : List BDoc) (oid : Nat)
    (payload : BDoc) (steps' : List BDoc)
    (h : updateFirstStep steps oid payload = some steps') :
    ∃ pre old post, steps = pre ++ old :: post ∧
      getField old "_id" = some (.oid oid) ∧
      steps' = pre ++ applySet old payload :: post := by
  induction steps generalizing steps' with
  | nil => simp [updateFirstStep] at h
  | cons e ds ih =>
      by_cases he : getField e "_id" = some (.oid oid)
      · rw [updateFirstStep, if_pos he] at h
        exact ⟨[], e, ds, rfl, he, (Option.some.inj h).symm⟩
      · rw [updateFirstStep, if_neg he] at h
        obtain ⟨ds', hds', hcons⟩ := Option.map_eq_some'.mp h
        obtain ⟨pre, old, post, h1, h2, h3⟩ := ih ds' hds'
        exact ⟨e :: pre, old, post, by rw [h1]; rfl, h2,
               by rw [← hcons, h3]; rfl⟩

theorem find_one_progress_upsert (l : List ProgressDoc) (uid : String)
    (items : List (String × Bool)) (now : Nat) :
    (upsertProgress l uid items now).find? (fun d => d.user_id = uid) =
      some ⟨uid, items, now⟩ := by
  induction l with
  | nil => simp [upsertProgress, List.find?]
  | cons d ds ih =>
      by_cases hd : d.user_id = uid
      · rw [upsertProgress, if_pos hd]
        rw [List.find?_cons_of_pos _ (by simpa using hd)]
        simp [hd]
      · rw [upsertProgress, if_neg hd]
        rw [List.find?_cons_of_neg _ (by simpa using hd)]
        exact ih

theorem find?_isSome_of_mem {α : Type} (p : α → Bool) (l : List α) (u : α)
    (hm : u ∈ l) (hu : p u = true) : (l.find? p).isSome := by
  induction l with
  | nil => cases hm
  | cons a l ih =>
      by_cases ha : p a
      · rw [List.find?_cons_of_pos _ ha]; rfl
      · rw [List.find?_cons_of_neg _ (by simpa using ha)]
        rcases List.mem_cons.mp hm with h | h
        · subst h; exact absurd hu (by simpa using ha)
        · exact ih h

theorem signup_ok_elim (hs : HashScheme) (s : Store) (p : SignupRequest)
    (r : AuthResponse) (s' : Store)
    (h : signup hs (some s) p = .ok (r, s')) :
    find_one_user s p.email = none ∧
    r = ⟨toString s.nextId, p.email, p.name, "user"⟩ ∧
    s' = { s with
            users := s.users ++
              [⟨s.nextId, p.email, hs.hash p.password, p.name, "user"⟩],
            nextId := s.nextId + 1 } := by
  by_cases hf : (find_one_user s p.email).isSome
  · rw [signup] at h
    simp only [hf, if_true] at h
    exact absurd h (by simp)
  · rw [signup] at h
    simp only [hf, if_false, create_user_document] at h
    have hp := Except.ok.inj h
    refine ⟨Option.not_isSome_iff_eq_none.mp hf, ?_, ?_⟩
    · have := congrArg Prod.fst hp
      simpa using this.symm
    · have := congrArg Prod.snd hp
      simpa using this.symm

-- Claim theorems

/-- C9: when the store connection handle is absent, `login` answers 401
"Invalid credentials" for every credential pair — not the 500
service-unavailable condition of the spec's error taxonomy. -/
theorem login_db_absent_is_unauthorized (hs : HashScheme) (p : LoginRequest) :
    login hs none p = .error ⟨401, "Invalid credentials"⟩ ∧
    (⟨401, "Invalid credentials"⟩ : HttpError) ≠ ⟨500, "Database not available"⟩ := by
  refine ⟨rfl, ?_⟩
  intro h
  exact absurd (congrArg HttpError.status h) (by decide)

/-- C10: `get_progress` never fails: with the store handle absent it
returns the empty items map, while `set_progress` in the same situation
fails with the 500 service-unavailable error. -/
theorem get_progress_db_absent_empty (uid : String) (now : Nat)
    (p : ProgressUpdate) :
    get_progress none uid = ⟨[]⟩ ∧
    set_progress none now p = .error ⟨500, "Database not available"⟩ :=
  ⟨rfl, rfl⟩

/-- C5: `update_step` and `delete_step` answer 404 exactly when no stored
step has the given identifier (so a missing identifier is never a silent
success), and answer 500 when the store handle is absent. -/
theorem step_update_delete_not_found_iff (s : Store) (oid : Nat)
    (payload : BDoc) :
    update_step none oid payload = .error ⟨500, "Database not available"⟩ ∧
    delete_step none oid = .error ⟨500, "Database not available"⟩ ∧
    (update_step (some s) oid payload = .error ⟨404, "Step not found"⟩ ↔
      ∀ d ∈ s.steps, getField d "_id" ≠ some (.oid oid)) ∧
    (delete_step (some s) oid = .error ⟨404, "Step not found"⟩ ↔
      ∀ d ∈ s.steps, getField d "_id" ≠ some (.oid oid)) := by
  refine ⟨rfl, rfl, ?_, ?_⟩
  · rw [← updateFirstStep_eq_none_iff s.steps oid payload]
    constructor
    · intro h
      cases hu : updateFirstStep s.steps oid payload with
      | none => rfl
      | some steps' => simp [update_step, hu] at h
    · intro h
      simp [update_step, h]
  · rw [← deleteFirstStep_eq_none_iff s.steps oid]
    constructor
    · intro h
      cases hu : deleteFirstStep s.steps oid with
      | none => rfl
      | some steps' => simp [delete_step, hu] at h
    · intro h
      simp [delete_step, h]

/-- C4: `list_steps` returns the shaped versions of all stored step
documents, sorted ascending by the integer `order` field; each shaped
document has its raw `_id` removed and a string `id` field holding the
identifier's string form. -/
theorem list_steps_sorted_and_shaped (s : Store) :
    List.Sorted (fun a b => orderKey a ≤ orderKey b) (list_steps (some s)) ∧
    (list_steps (some s)).Perm (s.steps.map shapeStep) ∧
    (∀ d ∈ s.steps, getField (shapeStep d) "_id" = none) ∧
    (∀ d ∈ s.steps, ∀ n, getField d "_id" = some (.oid n) →
      getField (shapeStep d) "id" = some (.str (toString n))) := by
  refine ⟨?_, ?_, ?_, ?_⟩
  · exact List.sorted_insertionSort (fun a b => orderKey a ≤ orderKey b)
      (s.steps.map shapeStep)
  · exact List.perm_insertionSort (fun a b => orderKey a ≤ orderKey b)
      (s.steps.map shapeStep)
  · intro d _
    exact getField_popField_self _ "_id"
  · intro d _ n hn
    unfold shapeStep
    rw [getField_popField_ne _ _ _ (by decide), hn,
        getField_setField_self]

/-- C6: a successful `update_step` is a field-level merge: the matched
step is replaced by `applySet old payload`, in which every field named in
the payload holds the payload's value and every other field is unchanged;
the other steps and all the other collections are untouched. -/
theorem update_step_is_field_merge (s : Store) (oid : Nat) (payload : BDoc)
    (s' : Store)
    (hnd : (payload.map Prod.fst).Nodup)
    (h : update_step (some s) oid payload = .ok s') :
    ∃ pre old post, s.steps = pre ++ old :: post ∧
      getField old "_id" = some (.oid oid) ∧
      s'.steps = pre ++ applySet old payload :: post ∧
      (∀ k v, getField payload k = some v →
        getField (applySet old payload) k = some v) ∧
      (∀ k, getField payload k = none →
        getField (applySet old payload) k = getField old k) ∧
      s'.users = s.users ∧ s'.progress = s.progress ∧
      s'.notifications = s.notifications := by
  cases hu : updateFirstStep s.steps oid payload with
  | none => simp [update_step, hu] at h
  | some steps' =>
      have hs' : s' = { s with steps := steps' } := by
        simp [update_step, hu] at h
        exact h.symm
      obtain ⟨pre, old, post, h1, h2, h3⟩ :=
        updateFirstStep_eq_some_elim s.steps oid payload steps' hu
      refine ⟨pre, old, post, h1, h2, ?_, ?_, ?_, ?_, ?_, ?_⟩
      · rw [hs']; exact h3
      · intro k v hk
        exact getField_applySet_of_some old payload k v hnd hk
      · intro k hk
        exact getField_applySet_of_none old payload k hk
      · rw [hs']
      · rw [hs']
      · rw [hs']

/-- C3: `set_progress` followed by `get_progress` returns exactly the map
that was set; a second `set_progress` fully replaces the stored map (the
get returns exactly the new map); and each set stamps the capture of the
server-side current time on the progress document found for that user. -/
theorem progress_set_get_roundtrip (s : Store) (uid : String)
    (M M2 : List (String × Bool)) (now now2 : Nat) (s1 s2 : Store)
    (h1 : set_progress (some s) now ⟨uid, M⟩ = .ok s1)
    (h2 : set_progress (some s1) now2 ⟨uid, M2⟩ = .ok s2) :
    get_progress (some s1) uid = ⟨M⟩ ∧
    get_progress (some s2) uid = ⟨M2⟩ ∧
    find_one_progress s1 uid = some ⟨uid, M, now⟩ ∧
    find_one_progress s2 uid = some ⟨uid, M2, now2⟩ := by
  have hs1 : s1 = { s with progress := upsertProgress s.progress uid M now } := by
    simpa [set_progress] using (Except.ok.inj h1).symm
  have hs2 : s2 = { s1 with progress := upsertProgress s1.progress uid M2 now2 } := by
    simpa [set_progress] using (Except.ok.inj h2).symm
  have hf1 : find_one_progress s1 uid = some ⟨uid, M, now⟩ := by
    rw [hs1]
    exact find_one_progress_upsert s.progress uid M now
  have hf2 : find_one_progress s2 uid = some ⟨uid, M2, now2⟩ := by
    rw [hs2]
    exact find_one_progress_upsert s1.progress uid M2 now2
  exact ⟨by simp [get_progress, hf1], by simp [get_progress, hf2], hf1, hf2⟩

/-- C7: a notification created through the API is stored with type
"reminder"; the listing for any other user identifier is unchanged by the
creation, and the listing for the creating user gains exactly the new
notification, its identifier as a string. -/
theorem notification_reminder_and_scoped (s : Store) (p : NotificationIn)
    (nid : String) (s' : Store)
    (h : create_notification (some s) p = .ok (nid, s')) :
    (∃ n, s'.notifications = s.notifications ++ [n] ∧
      n.type = "reminder" ∧ n.user_id = p.user_id ∧
      n.message = p.message ∧ n.due_date = p.due_date ∧ toString n.id = nid) ∧
    (∀ u2, u2 ≠ p.user_id →
      list_notifications (some s') u2 = list_notifications (some s) u2) ∧
    list_notifications (some s') p.user_id =
      list_notifications (some s) p.user_id ++
        [⟨nid, p.user_id, "reminder", p.message, p.due_date⟩] := by
  have hp := Except.ok.inj h
  have hnid : nid = toString s.nextId := by
    have := congrArg Prod.fst hp
    simpa using this.symm
  have hs' : s' = { s with
      notifications :=
        s.notifications ++ [⟨s.nextId, p.user_id, "reminder", p.message, p.due_date⟩],
      nextId := s.nextId + 1 } := by
    have := congrArg Prod.snd hp
    simpa using this.symm
  refine ⟨⟨⟨s.nextId, p.user_id, "reminder", p.message, p.due_date⟩,
          by rw [hs'], rfl, rfl, rfl, rfl, hnid.symm⟩, ?_, ?_⟩
  · intro u2 hu2
    rw [hs']
    simp only [list_notifications, List.filter_append]
    rw [List.filter_singleton]
    simp [Ne.symm hu2]
  · rw [hs', hnid]
    simp only [list_notifications, List.filter_append]
    rw [List.filter_singleton]
    simp

/-- C1: after a successful signup, logging in with the same email and
password succeeds and returns the same user_id, email, name, and stored
role (the signup response itself); logging in with an unknown email, or a
password that does not verify against the stored hash, answers 401. -/
theorem login_roundtrip_after_signup (hs : HashScheme) (s : Store)
    (p : SignupRequest) (r : AuthResponse) (s' : Store)
    (hsu : signup hs (some s) p = .ok (r, s'))
    (hv : hs.verify p.password (hs.hash p.password) = true) :
    login hs (some s') ⟨p.email, p.password⟩ = .ok r ∧
    r = ⟨toString s.nextId, p.email, p.name, "user"⟩ ∧
    (∀ q : LoginRequest, find_one_user s' q.email = none →
      login hs (some s') q = .error ⟨401, "Invalid credentials"⟩) ∧
    (∀ (q : LoginRequest) (u : UserDoc), find_one_user s' q.email = some u →
      hs.verify q.password u.password_hash = false →
      login hs (some s') q = .error ⟨401, "Invalid credentials"⟩) := by
  obtain ⟨hfind, hr, hstore⟩ := signup_ok_elim hs s p r s' hsu
  have hfind' : find_one_user s' p.email =
      some ⟨s.nextId, p.email, hs.hash p.password, p.name, "user"⟩ := by
    rw [hstore]
    unfold find_one_user at hfind ⊢
    exact find?_append_singleton _ s.users _ hfind (by simp)
  refine ⟨?_, hr, ?_, ?_⟩
  · simp [login, hfind', hv, hr]
  · intro q hq
    simp [login, hq]
  · intro q u hq hv2
    simp [login, hq, hv2]

/-- C2: signup answers the 400 conflict exactly when a user with that
exact email is already stored, and after a successful signup any second
signup with the same email (whatever its password or name) answers the
400 conflict. -/
theorem signup_conflict_iff_email_exists (hs : HashScheme) (s : Store)
    (p : SignupRequest) :
    (signup hs (some s) p = .error ⟨400, "Email already registered"⟩ ↔
      ∃ u ∈ s.users, u.email = p.email) ∧
    (∀ (r : AuthResponse) (s' : Store) (p2 : SignupRequest),
      signup hs (some s) p = .ok (r, s') → p2.email = p.email →
      signup hs (some s') p2 = .error ⟨400, "Email already registered"⟩) := by
  constructor
  · constructor
    · intro h
      by_cases hf : (find_one_user s p.email).isSome
      · obtain ⟨u, hu⟩ := Option.isSome_iff_exists.mp hf
        exact ⟨u, List.mem_of_find?_eq_some hu,
               by simpa using List.find?_some hu⟩
      · rw [signup] at h
        simp only [hf, if_false, create_user_document] at h
        exact absurd h (by simp)
    · rintro ⟨u, hmem, hemail⟩
      have hf : (find_one_user s p.email).isSome :=
        find?_isSome_of_mem _ s.users u hmem (by simpa using hemail)
      rw [signup]
      simp [hf]
  · intro r s' p2 hok hem
    obtain ⟨hfind, _, hstore⟩ := signup_ok_elim hs s p r s' hok
    have hf : (find_one_user s' p2.email).isSome := by
      rw [hstore, hem]
      unfold find_one_user at hfind ⊢
      rw [find?_append_singleton _ s.users _ hfind (by simp)]
      rfl
    rw [signup]
    simp [hf]

/-- C8: a successful signup stores exactly one new user whose
password_hash is the one-way hash of the supplied password — never the
plaintext itself (given that the hash differs from the plaintext, as a
bcrypt-format hash always does) — and the response carries only the new
identifier, email, name, and role "user" (the `AuthResponse` shape has no
hash field). -/
theorem signup_stores_hash_not_plaintext (hs : HashScheme) (s : Store)
    (p : SignupRequest) (r : AuthResponse) (s' : Store)
    (hne : hs.hash p.password ≠ p.password)
    (h : signup hs (some s) p = .ok (r, s')) :
    ∃ u : UserDoc, s'.users = s.users ++ [u] ∧
      u.password_hash = hs.hash p.password ∧
      u.password_hash ≠ p.password ∧
      r = ⟨toString u.id, p.email, p.name, "user"⟩ := by
  obtain ⟨_, hr, hstore⟩ := signup_ok_elim hs s p r s' h
  exact ⟨⟨s.nextId, p.email, hs.hash p.password, p.name, "user"⟩,
         by rw [hstore], rfl, hne, by rw [hr]⟩

-- Witnesses: closed instantiations of the theorems with hypotheses

/-- Witness for C1 at a concrete signup. -/
theorem login_roundtrip_after_signup_witness :
    login hsModel
      (some ⟨[⟨0, "a@b.c", "$2b$12$pw", none, "user"⟩], [], [], [], 1⟩)
      ⟨"a@b.c", "pw"⟩ = .ok ⟨"0", "a@b.c", none, "user"⟩ :=
  (login_roundtrip_after_signup hsModel emptyStore ⟨"a@b.c", "pw", none⟩
      ⟨"0", "a@b.c", none, "user"⟩
      ⟨[⟨0, "a@b.c", "$2b$12$pw", none, "user"⟩], [], [], [], 1⟩
      (by rfl) (by rfl)).1

/-- Witness for C3 at a concrete pair of saves. -/
theorem progress_set_get_roundtrip_witness :
    get_progress
        (some ⟨[], [], [⟨"u1", [("a", true), ("b", false)], 0⟩], [], 0⟩) "u1" =
      ⟨[("a", true), ("b", false)]⟩ ∧
    get_progress (some ⟨[], [], [⟨"u1", [("a", true)], 1⟩], [], 0⟩) "u1" =
      ⟨[("a", true)]⟩ ∧
    find_one_progress ⟨[], [], [⟨"u1", [("a", true), ("b", false)], 0⟩], [], 0⟩
        "u1" = some ⟨"u1", [("a", true), ("b", false)], 0⟩ ∧
    find_one_progress ⟨[], [], [⟨"u1", [("a", true)], 1⟩], [], 0⟩ "u1" =
      some ⟨"u1", [("a", true)], 1⟩ :=
  progress_set_get_roundtrip emptyStore "u1" [("a", true), ("b", false)]
    [("a", true)] 0 1
    ⟨[], [], [⟨"u1", [("a", true), ("b", false)], 0⟩], [], 0⟩
    ⟨[], [], [⟨"u1", [("a", true)], 1⟩], [], 0⟩
    (by rfl) (by rfl)

/-- Witness for C6 at a concrete step and payload. -/
theorem update_step_is_field_merge_witness :
    ∃ pre old post,
      [[("_id", BVal.oid 5), ("title", BVal.str "t"), ("order", BVal.int 1)]] =
        pre ++ old :: post ∧
      getField old "_id" = some (.oid 5) ∧
      [[("_id", BVal.oid 5), ("title", BVal.str "t2"), ("order", BVal.int 1)]] =
        pre ++ applySet old [("title", BVal.str "t2")] :: post ∧
      (∀ k v, getField [("title", BVal.str "t2")] k = some v →
        getField (applySet old [("title", BVal.str "t2")]) k = some v) ∧
      (∀ k, getField [("title", BVal.str "t2")] k = none →
        getField (applySet old [("title", BVal.str "t2")]) k = getField old k) ∧
      ([] : List UserDoc) = [] ∧ ([] : List ProgressDoc) = [] ∧
      ([] : List NotifDoc) = [] := by
  exact update_step_is_field_merge
    ⟨[], [[("_id", .oid 5), ("title", .str "t"), ("order", .int 1)]], [], [], 6⟩
    5 [("title", .str "t2")]
    ⟨[], [[("_id", .oid 5), ("title", .str "t2"), ("order", .int 1)]], [], [], 6⟩
    (by decide) (by rfl)

/-- Witness for C7 at a concrete creation. -/
theorem notification_reminder_and_scoped_witness :
    (∃ n, (⟨[], [], [], [⟨0, "u1", "reminder", "hi", none⟩], 1⟩ : Store).notifications =
        emptyStore.notifications ++ [n] ∧ n.type = "reminder" ∧ n.user_id = "u1" ∧
        n.message = "hi" ∧ n.due_date = none ∧ toString n.id = "0") ∧
    (∀ u2, u2 ≠ "u1" →
      list_notifications (some ⟨[], [], [], [⟨0, "u1", "reminder", "hi", none⟩], 1⟩) u2 =
        list_notifications (some emptyStore) u2) ∧
    list_notifications (some ⟨[], [], [], [⟨0, "u1", "reminder", "hi", none⟩], 1⟩) "u1" =
      list_notifications (some emptyStore) "u1" ++
        [⟨"0", "u1", "reminder", "hi", none⟩] := by
  exact notification_reminder_and_scoped emptyStore ⟨"u1", "hi", none⟩ "0"
    ⟨[], [], [], [⟨0, "u1", "reminder", "hi", none⟩], 1⟩ (by rfl)

/-- Witness for C8 at a concrete signup. -/
theorem signup_stores_hash_not_plaintext_witness :
    ∃ u : UserDoc,
      (⟨[⟨0, "c8@x", "$2b$12$secret", none, "user"⟩], [], [], [], 1⟩ : Store).users =
        emptyStore.users ++ [u] ∧
      u.password_hash = hsModel.hash "secret" ∧
      u.password_hash ≠ "secret" ∧
      (⟨"0", "c8@x", none, "user"⟩ : AuthResponse) =
        ⟨toString u.id, "c8@x", none, "user"⟩ := by
  exact signup_stores_hash_not_plaintext hsModel emptyStore
    ⟨"c8@x", "secret", none⟩ ⟨"0", "c8@x", none, "user"⟩
    ⟨[⟨0, "c8@x", "$2b$12$secret", none, "user"⟩], [], [], [], 1⟩
    (by decide) (by rfl)

end WorkInTaiwan
